import Mathlib

/-!
Verification of the AnyRead file-ingestion library (TypeScript) against its
natural-language specification, via a shallow embedding in Lean 4.

Embedding conventions:
* Pure TypeScript functions become Lean functions with the same names.
* JS `Buffer` contents are modelled as the decoded `String` they produce.
* External effects (the `decodeURIComponent` builtin, HTTP downloads, the
  per-format document decoders, and the AI provider call) are oracles: each
  `parse` invocation is parameterized by the outcome every collaborator
  would produce (`ParseWorld`).
* JS numbers used as row limits are modelled as `Int` (the code compares a
  possibly-negative `maxRows` against lengths); machine-float subtleties do
  not arise for the small integral values involved.
-/

namespace AnyRead

/-- File categories, from `types.ts` / the `EXTENSION_MAP` in `parser.ts`. -/
inductive FileType where
  | excel | csv | word | text | pdf | json | yaml | xml | html | markdown
  | image | audio | video | unknown
deriving DecidableEq, Repr

/-- The `ParsedFile` record of `types.ts`.  The optional metadata bag
(byte size, MIME type, sheet names, row count) is carried by the tabular
extractors' own result types below and is not re-modelled here, since no
claim inspects it through `parse`. -/
structure ParsedFile where
  fileName : String
  url : String
  type : FileType
  content : String
  success : Bool
  error : Option String
deriving DecidableEq, Repr

/-! #### Character-level string helpers

The JS string builtins used by the source (`split`, `trim`, `replace`,
`includes`, `toLowerCase`) are modelled by structurally recursive
functions over the character list, so that every definition evaluates
inside the kernel. -/

/-- `JS s.split(sep)` for a single-character separator, on char lists:
always returns at least one (possibly empty) piece. -/
def splitCharList (sep : Char) : List Char → List (List Char)
  | [] => [[]]
  | c :: rest =>
      let r := splitCharList sep rest
      if c = sep then [] :: r else (c :: r.headD []) :: r.tail

/-- `JS s.split(sep)` for a single-character separator. -/
def splitChar (sep : Char) (s : String) : List String :=
  (splitCharList sep s.toList).map String.mk

/-- `JS s.trim()`: strip leading and trailing whitespace (the ASCII
whitespace relevant to the claims; JS also trims some exotic Unicode
spaces, which never occur here). -/
def jsTrim (s : String) : String :=
  String.mk (((s.toList.dropWhile Char.isWhitespace).reverse.dropWhile
    Char.isWhitespace).reverse)

/-- `JS s.replace(/c/g, rep)`: replace every occurrence of the character
`c` by the string `rep`. -/
def replaceChar (c : Char) (rep : String) (s : String) : String :=
  String.join (s.toList.map (fun x => if x = c then rep else String.singleton x))

/-- `JS s.includes(c)` for a single-character needle. -/
def containsChar (s : String) (c : Char) : Bool :=
  s.toList.contains c

/-- `JS s.toLowerCase()` (ASCII-relevant part). -/
def toLowerStr (s : String) : String :=
  String.mk (s.toList.map Char.toLower)

/-- Node `path.extname` for ordinary file names: the suffix of the final
path segment starting at its last dot, or `""` when there is no dot or the
only dot is the leading character.  (Node's special-casing of all-dot names
such as `".."` is not reproduced; no claim exercises it.) -/
def extname (filename : String) : String :=
  let base := (splitChar '/' filename).getLastD ""
  let parts := splitChar '.' base
  match parts with
  | [] => ""
  | [_] => ""
  | ["", _] => ""
  | _ => "." ++ parts.getLastD ""

/-- The `EXTENSION_MAP` table of `parser.ts`. -/
def EXTENSION_MAP : List (String × FileType) :=
  [ (".xlsx", .excel), (".xls", .excel), (".csv", .csv),
    (".docx", .word), (".doc", .word), (".txt", .text), (".rtf", .text),
    (".json", .json), (".yaml", .yaml), (".yml", .yaml), (".xml", .xml),
    (".html", .html), (".htm", .html), (".md", .markdown), (".markdown", .markdown),
    (".pdf", .pdf),
    (".jpg", .image), (".jpeg", .image), (".png", .image), (".gif", .image),
    (".webp", .image), (".bmp", .image), (".svg", .image), (".ico", .image),
    (".tiff", .image), (".tif", .image),
    (".mp3", .audio), (".wav", .audio), (".ogg", .audio), (".m4a", .audio),
    (".flac", .audio), (".aac", .audio),
    (".mp4", .video), (".avi", .video), (".mov", .video), (".webm", .video),
    (".mkv", .video) ]

/-- `FileParser.detectFileType`: `EXTENSION_MAP[path.extname(filename).toLowerCase()] || "unknown"`. -/
def detectFileType (filename : String) : FileType :=
  (EXTENSION_MAP.lookup (toLowerStr (extname filename))).getD .unknown

/-- `FileParser.extractFileName`, parameterized by the outcome of the
`decodeURIComponent` builtin (`none` models the builtin throwing a
`URIError`, caught by the surrounding `try`): take the last `/`-segment of
the decoded URL, strip everything from the first `?`, and fall back to
`"unknown"` when that is empty or decoding threw. -/
def extractFileName (decoded : Option String) : String :=
  match decoded with
  | none => "unknown"
  | some d =>
      let lastSeg := (splitChar '/' d).getLastD ""
      let name := (splitChar '?' lastSeg).headD ""
      if name = "" then "unknown" else name

/-- The `labels` table inside `FileParser.parseWithAI`; a lookup miss in JS
would interpolate as the string `"undefined"` (unreachable in practice). -/
def aiLabel : FileType → String
  | .image => "图片文件"
  | .audio => "音频文件"
  | .video => "视频文件"
  | .pdf => "PDF文档"
  | _ => "undefined"

/-- `FileParser.parseWithAI`: the AI-fallback path for image/audio/video/pdf.
`ai` is the collaborator oracle: `none` means no AI provider is configured,
`some (.error e)` means the provider call threw after retries, and
`some (.ok c)` means it returned content `c`.  On `none` or failure the
function returns the placeholder-link record; it never throws. -/
def parseWithAI (url fileName : String) (t : FileType)
    (ai : Option (Except String String)) : ParsedFile :=
  match ai with
  | some (.ok content) => ⟨fileName, url, t, content, true, none⟩
  | _ =>
      ⟨fileName, url, t,
        "[" ++ aiLabel t ++ "] " ++ fileName ++ "\n文件链接: " ++ url ++
          "\n（需要配置 AI 才能解析此类型文件）",
        true, none⟩

/-- Outcomes of the external collaborators consumed by one `parse(url)`
call: the `decodeURIComponent` builtin, the byte download, the local
decoder for the detected type, the local PDF decoder, and the AI provider.
Only the collaborator actually reached by the control flow matters. -/
structure ParseWorld where
  decoded : Option String
  download : Except String Unit
  decode : Except String String
  pdfLocal : Except String String
  ai : Option (Except String String)

/-- `FileParser.parse` (spec name `parseOne`): classify, dispatch, and
normalize into a `ParsedFile`; every collaborator error is absorbed into
the returned record (the `catch` branch yields `content = ""` and the
error message), except that a PDF local-decode failure falls through to
the AI path and an AI failure degrades to a placeholder. -/
def parse (url : String) (w : ParseWorld) : ParsedFile :=
  let fileName := extractFileName w.decoded
  let fileType := detectFileType fileName
  match fileType with
  | .image => parseWithAI url fileName .image w.ai
  | .audio => parseWithAI url fileName .audio w.ai
  | .video => parseWithAI url fileName .video w.ai
  | .unknown =>
      ⟨fileName, url, .unknown, "[未知格式] " ++ fileName, false,
        some "不支持的文件格式"⟩
  | ft =>
      match w.download with
      | .error msg => ⟨fileName, url, ft, "", false, some msg⟩
      | .ok _ =>
          match ft with
          | .pdf =>
              match w.pdfLocal with
              | .ok content => ⟨fileName, url, .pdf, content, true, none⟩
              | .error _ => parseWithAI url fileName .pdf w.ai
          | _ =>
              match w.decode with
              | .ok content => ⟨fileName, url, ft, content, true, none⟩
              | .error msg => ⟨fileName, url, ft, "", false, some msg⟩

/-! ### Tabular extractor: CSV (`parsers/csv.ts`, the variant with raw output) -/

/-- One sheet of the structured `raw` payload (`RawSheetData` in `types.ts`).
Cells are `any` in TS; the model is polymorphic in the cell type (`String`
for CSV, `Option String` for Excel). -/
structure RawSheetData (α : Type) where
  name : String
  headers : List String
  rows : List (List α)
  totalRows : Nat
deriving DecidableEq, Repr

/-- `RawOutput` of `types.ts`. -/
structure RawOutput (α : Type) where
  sheets : List (RawSheetData α)
deriving DecidableEq, Repr

namespace Csv

/-- The `ParserConfig["csv"]` block with the code's `??` defaults applied
(`delimiter=","`, `maxRows=-1`, `outputFormat="markdown"`).  The JS
delimiter is a string compared character-by-character; only single-character
delimiters can ever match, so it is modelled as a `Char`. -/
structure CSVConfig where
  delimiter : Char
  maxRows : Int
  outputFormat : String
deriving DecidableEq, Repr

/-- Metadata of `CSVParseResult`. -/
structure CSVMetadata where
  rowCount : Nat
  truncated : Bool
deriving DecidableEq, Repr

/-- `CSVParseResult` of `parsers/csv.ts`. -/
structure CSVParseResult where
  content : String
  rawData : Option (RawOutput String)
  metadata : CSVMetadata
deriving DecidableEq, Repr

/-- `text.split(/\r?\n/)`: split on `'\n'` and strip one trailing `'\r'`
from each piece (the regex consumes an optional `'\r'` right before each
`'\n'`). -/
def splitLines (text : String) : List String :=
  (splitChar '\n' text).map
    (fun s => if s.toList.getLast? = some '\r' then String.mk s.toList.dropLast else s)

/-- `lines.filter(line => line.trim())`: keep lines whose trim is nonempty. -/
def csvLines (text : String) : List String :=
  (splitLines text).filter (fun l => jsTrim l ≠ "")

/-- Loop body of `parseCSVLine`: a two-state machine (inside / outside
quotes) over the characters of a line; a doubled quote inside quotes emits
one literal quote, the delimiter splits only outside quotes, and each
finished field is trimmed.  `current` holds the pending field reversed. -/
def parseCSVLineGo (delimiter : Char) : List Char → Bool → List Char → List String
  | [], _, current => [jsTrim (String.mk current.reverse)]
  | '"' :: '"' :: rest2, true, current =>
      parseCSVLineGo delimiter rest2 true ('"' :: current)
  | '"' :: rest, true, current => parseCSVLineGo delimiter rest false current
  | c :: rest, true, current => parseCSVLineGo delimiter rest true (c :: current)
  | c :: rest, false, current =>
      if c = '"' then parseCSVLineGo delimiter rest true current
      else if c = delimiter then
        jsTrim (String.mk current.reverse) :: parseCSVLineGo delimiter rest false []
      else parseCSVLineGo delimiter rest false (c :: current)

/-- `parseCSVLine(line, delimiter)` of `parsers/csv.ts`. -/
def parseCSVLine (line : String) (delimiter : Char) : List String :=
  parseCSVLineGo delimiter line.toList false []

/-- `cell.replace(/\|/g, "\\|")`. -/
def escapePipe (cell : String) : String := replaceChar '|' "\\|" cell

/-- One rendered markdown table line: `"| " + cells.join(" | ") + " |\n"`. -/
def mdTableRow (cells : List String) : String :=
  "| " ++ String.intercalate " | " cells ++ " |\n"

/-- `formatAsMarkdown` of `parsers/csv.ts`: header row, dash separator row,
then one line per remaining row; pipes inside cells are escaped. -/
def formatAsMarkdown (rows : List (List String)) : String :=
  match rows with
  | [] => ""
  | r0 :: body =>
      let header := r0.map escapePipe
      mdTableRow header
        ++ mdTableRow (header.map (fun _ => "---"))
        ++ String.join (body.map (fun r => mdTableRow (r.map escapePipe)))

/-- JSON string escaping for the characters that can occur in parsed cells
(backslash, quote, and the common control characters); stands in for the
escaping performed by `JSON.stringify`. -/
def jsonEscape (s : String) : String :=
  String.join (s.toList.map (fun c =>
    if c = '\\' then "\\\\"
    else if c = '"' then "\\\""
    else if c = '\n' then "\\n"
    else if c = '\r' then "\\r"
    else if c = '\t' then "\\t"
    else String.singleton c))

/-- A JSON string literal. -/
def jsonQuote (s : String) : String := "\"" ++ jsonEscape s ++ "\""

/-- `JSON.stringify(data, null, 2)` for an array of flat string-valued
objects, as produced by `formatAsJSON` (layout replicated; no claim
inspects this output). -/
def jsonStringifyRows (data : List (List (String × String))) : String :=
  if data.isEmpty then "[]"
  else
    "[\n" ++
      String.intercalate ",\n" (data.map (fun pairs =>
        if pairs.isEmpty then "  \x7b\x7d"
        else
          "  \x7b\n" ++
            String.intercalate ",\n" (pairs.map (fun p =>
              "    " ++ jsonQuote p.1 ++ ": " ++ jsonQuote p.2)) ++
            "\n  \x7d")) ++
    "\n]"

/-- `formatAsJSON` of `parsers/csv.ts`: each data row becomes an object
keyed by the header cell at the same index, or `col<idx>` when that header
cell is missing or empty (the JS `||` fallback). -/
def formatAsJSON (rows : List (List String)) : String :=
  match rows with
  | [] => "[]"
  | headers :: _ =>
      jsonStringifyRows ((rows.drop 1).map (fun r =>
        r.enum.map (fun p =>
          let key := headers.getD p.1 ""
          ((if key = "" then "col" ++ toString p.1 else key), p.2))))

/-- The `rowsToInclude` value computed inside `parseCSV`:
`min(lines.length, maxRows > 0 ? maxRows : lines.length)`. -/
def rowsToIncludeOf (text : String) (cfg : CSVConfig) : Nat :=
  min (csvLines text).length
    (if 0 < cfg.maxRows then cfg.maxRows.toNat else (csvLines text).length)

/-- The `truncated` flag computed inside `parseCSV`:
`maxRows > 0 && lines.length > maxRows`. -/
def truncatedOf (text : String) (cfg : CSVConfig) : Bool :=
  decide (0 < cfg.maxRows) && decide (cfg.maxRows < ((csvLines text).length : Int))

/-- The omission footer appended by `parseCSV` when truncated. -/
def omitFooter (text : String) (cfg : CSVConfig) : String :=
  if truncatedOf text cfg then
    "\n\n... 省略了 " ++ toString (((csvLines text).length : Int) - cfg.maxRows) ++ " 行数据"
  else ""

/-- The `parsedRows` matrix computed inside `parseCSV`: the first
`rowsToInclude` nonblank lines, each run through `parseCSVLine`. -/
def includedRows (text : String) (cfg : CSVConfig) : List (List String) :=
  ((csvLines text).take (rowsToIncludeOf text cfg)).map
    (fun l => parseCSVLine l cfg.delimiter)

/-- `parseCSV` of `parsers/csv.ts` (buffer already decoded to `text`;
`fileName` is accepted but, as in the source, unused). -/
def parseCSV (text fileName : String) (config : CSVConfig) : CSVParseResult :=
  let lines := csvLines text
  if lines.length = 0 then
    ⟨"空文件", none, ⟨0, false⟩⟩
  else
    let rowsToInclude := rowsToIncludeOf text config
    let truncated := truncatedOf text config
    let parsedRows := includedRows text config
    let rendered :=
      if config.outputFormat = "raw" then
        let headers := parsedRows.headD []
        let rows := parsedRows.drop 1
        ("【CSV】" ++ toString headers.length ++ " 列, " ++ toString rows.length ++ " 行",
          some (RawOutput.mk [⟨"CSV", headers, rows, rows.length⟩]))
      else if config.outputFormat = "markdown" then (formatAsMarkdown parsedRows, none)
      else if config.outputFormat = "json" then (formatAsJSON parsedRows, none)
      else
        (String.intercalate "\n"
          (parsedRows.map (fun row =>
            String.intercalate (String.singleton config.delimiter) row)), none)
    let content :=
      if truncated then
        rendered.1 ++ "\n\n... 省略了 " ++
          toString ((lines.length : Int) - config.maxRows) ++ " 行数据"
      else rendered.1
    ⟨jsTrim content, rendered.2, ⟨rowsToInclude, truncated⟩⟩

end Csv

/-! ### Tabular extractor: Excel (`parsers/excel.ts`) -/

namespace Excel

/-- An Excel cell as seen by the formatters: `none` models a JS
`undefined`/`null` cell, `some s` a defined cell abstracted to its JS
string form `String(cell)`. -/
abbrev Cell := Option String

/-- One workbook sheet after `XLSX.utils.sheet_to_json(ws, header: 1)`:
its name and its row-major cell matrix.  The `XLSX.read` decoding itself
is the external collaborator. -/
structure Sheet where
  name : String
  data : List (List Cell)
deriving DecidableEq, Repr

/-- The `ParserConfig["excel"]` block with the code's defaults applied
(`maxRows=-1`, `allSheets=true`, `outputFormat="markdown"`). -/
structure ExcelConfig where
  maxRows : Int
  allSheets : Bool
  outputFormat : String
deriving DecidableEq, Repr

/-- Metadata of `ExcelParseResult`. -/
structure ExcelMetadata where
  sheetNames : List String
  rowCount : Nat
  truncated : Bool
deriving DecidableEq, Repr

/-- `ExcelParseResult` of `parsers/excel.ts`. -/
structure ExcelParseResult where
  content : String
  rawData : Option (RawOutput Cell)
  metadata : ExcelMetadata
deriving DecidableEq, Repr

/-- Markdown cell rendering in `formatAsMarkdown` of `parsers/excel.ts`:
`String(cell).trim().replace(/\|/g, "\\|")` for defined cells, `""` for
`undefined`/`null`. -/
def mdCell (c : Cell) : String :=
  match c with
  | some v => replaceChar '|' "\\|" (jsTrim v)
  | none => ""

/-- `formatAsMarkdown(sheetName, data, maxRows)` of `parsers/excel.ts`:
a sheet title line, header row, dash separator, body rows with indices
`1 ≤ i < min maxRows data.length`, and an omission note when
`data.length > maxRows`. -/
def formatAsMarkdown (sheetName : String) (data : List (List Cell)) (maxRows : Nat) :
    String :=
  let head := "\n【工作表: " ++ sheetName ++ "】\n"
  let table :=
    if 0 < data.length then
      let header := (data.headD []).map mdCell
      Csv.mdTableRow header
        ++ Csv.mdTableRow (header.map (fun _ => "---"))
        ++ String.join (((data.drop 1).take (min maxRows data.length - 1)).map
            (fun r => Csv.mdTableRow (r.map mdCell)))
        ++ (if maxRows < data.length then
              "\n... 省略了 " ++ toString (data.length - maxRows) ++ " 行数据\n"
            else "")
    else ""
  head ++ table ++ "\n"

/-- `formatAsJSON(sheetName, data, maxRows)` of `parsers/excel.ts`: body
rows become objects keyed by the header cell (stringified) or `col<idx>`
when the header cell is `undefined`; `undefined` cell values disappear in
`JSON.stringify`, modelled by dropping `none` cells. -/
def formatAsJSON (sheetName : String) (data : List (List Cell)) (maxRows : Nat) :
    String :=
  let headers := data.headD []
  let rows := ((data.drop 1).take (min maxRows data.length - 1)).map (fun r =>
    (r.enum.filterMap (fun p =>
      p.2.map (fun v =>
        ((match headers.getD p.1 none with
          | some h => h
          | none => "col" ++ toString p.1), v)))))
  "\x7b\n  " ++ Csv.jsonQuote "sheet" ++ ": " ++ Csv.jsonQuote sheetName ++
    ",\n  " ++ Csv.jsonQuote "data" ++ ": " ++ Csv.jsonStringifyRows rows ++
    "\n\x7d" ++ "\n"

/-- CSV field escaping in `formatAsCSV` of `parsers/excel.ts`: empty for
`undefined`/`null`; a field containing a comma, a quote, or a newline is
wrapped in quotes with embedded quotes doubled; other fields pass through. -/
def csvEscapeCell (c : Cell) : String :=
  match c with
  | none => ""
  | some v =>
      if containsChar v ',' || containsChar v '"' || containsChar v '\n' then
        "\"" ++ replaceChar '"' "\"\"" v ++ "\""
      else v

/-- `formatAsCSV(data, maxRows)` of `parsers/excel.ts`: the first
`min maxRows data.length` rows, cells escaped and joined by `","`, one
line per row. -/
def formatAsCSV (data : List (List Cell)) (maxRows : Nat) : String :=
  String.join ((data.take maxRows).map
    (fun row => String.intercalate "," (row.map csvEscapeCell) ++ "\n"))

/-- Mutable loop state of `parseExcel`'s per-sheet `for` loop. -/
structure LoopState where
  content : String
  totalRows : Nat
  truncated : Bool
  rawSheets : List (RawSheetData Cell)
deriving Repr

/-- One iteration of `parseExcel`'s sheet loop: skip empty sheets;
compute `rowsToInclude = min(len, maxRows>0 ? maxRows : len)`; set the
sticky `truncated` flag when `maxRows > 0 && len > maxRows`; render per
`outputFormat` (pushing a raw sheet in `raw` mode); add `rowsToInclude`
to the running row count. -/
def processSheet (config : ExcelConfig) (st : LoopState) (sheet : Sheet) : LoopState :=
  if sheet.data.length = 0 then st
  else
    let maxRows := config.maxRows
    let effectiveMaxRows : Nat := if 0 < maxRows then maxRows.toNat else sheet.data.length
    let rowsToInclude := min sheet.data.length effectiveMaxRows
    let truncated :=
      st.truncated || (decide (0 < maxRows) && decide (maxRows < (sheet.data.length : Int)))
    if config.outputFormat = "raw" then
      ⟨st.content ++ "【工作表: " ++ sheet.name ++ "】" ++
          toString sheet.data.length ++ " 行\n",
        st.totalRows + rowsToInclude, truncated,
        st.rawSheets ++
          [⟨sheet.name, [],
            (sheet.data.take rowsToInclude).map (fun row => row.map (fun cell => cell)),
            sheet.data.length⟩]⟩
    else if config.outputFormat = "markdown" then
      ⟨st.content ++ formatAsMarkdown sheet.name sheet.data rowsToInclude,
        st.totalRows + rowsToInclude, truncated, st.rawSheets⟩
    else if config.outputFormat = "json" then
      ⟨st.content ++ formatAsJSON sheet.name sheet.data rowsToInclude,
        st.totalRows + rowsToInclude, truncated, st.rawSheets⟩
    else
      ⟨st.content ++ formatAsCSV sheet.data rowsToInclude,
        st.totalRows + rowsToInclude, truncated, st.rawSheets⟩

/-- The sheets the loop visits: all of them, or only the first when
`allSheets` is false. -/
def sheetsToProcess (config : ExcelConfig) (sheets : List Sheet) : List Sheet :=
  if config.allSheets then sheets else sheets.take 1

/-- The per-sheet `rowsToInclude` value computed inside `parseExcel`'s
loop: `min(jsonData.length, maxRows > 0 ? maxRows : jsonData.length)`. -/
def rowsToIncludeOf (config : ExcelConfig) (s : Sheet) : Nat :=
  min s.data.length (if 0 < config.maxRows then config.maxRows.toNat else s.data.length)

/-- The raw sheet pushed by `parseExcel`'s `raw` branch for one nonempty
sheet: empty headers, the truncated row matrix, and the sheet's full row
count. -/
def rawSheetOf (config : ExcelConfig) (s : Sheet) : RawSheetData Cell :=
  ⟨s.name, [],
    (s.data.take (rowsToIncludeOf config s)).map (fun row => row.map (fun cell => cell)),
    s.data.length⟩

/-- `parseExcel` of `parsers/excel.ts` (workbook already decoded into its
sheet list).  `sheetNames` always lists every sheet; `rawData` is present
exactly in `raw` mode. -/
def parseExcel (sheets : List Sheet) (config : ExcelConfig) : ExcelParseResult :=
  let st := (sheetsToProcess config sheets).foldl (processSheet config) ⟨"", 0, false, []⟩
  ⟨jsTrim st.content,
    if config.outputFormat = "raw" then some ⟨st.rawSheets⟩ else none,
    ⟨sheets.map (fun s => s.name), st.totalRows, st.truncated⟩⟩

end Excel

/-! ### Vision provider adapter retry loop
(`providers/openai.ts`, `providers/gemini.ts`, `providers/anthropic.ts`
share the identical skeleton: `for attempt = 1..maxRetries` try the HTTP
call, treat a missing/empty content as `throw "AI 返回内容为空"`, remember
the error, sleep `500 * attempt` ms when more attempts remain, and after
the loop `throw "图片识别失败: <lastError or 未知错误>"`.) -/

namespace Vision

/-- Outcome of one HTTP attempt as the loop body sees it: a response whose
extracted text is `content` (possibly empty), or a thrown error (network,
non-2xx, malformed body). -/
inductive AttemptResult where
  | ok (content : String)
  | err (msg : String)
deriving DecidableEq, Repr

/-- The body of one loop iteration up to the `catch`: a response with
empty extracted text becomes the error `"AI 返回内容为空"`, mirroring the
`if (content) return ... ; throw new Error(...)` shape. -/
def attemptEval : AttemptResult → Except String String
  | .ok c => if c = "" then .error "AI 返回内容为空" else .ok c
  | .err m => .error m

/-- What one `analyzeImage` run did: its result, the backoff sleeps (in
ms, in order), and how many attempts it made. -/
structure RunResult where
  result : Except String String
  sleeps : List Nat
  attempts : Nat
deriving Repr

/-- The final `throw new Error` message: wraps `lastError?.message ||
"未知错误"`. -/
def wrapFailure (lastError : Option String) : String :=
  "图片识别失败: " ++
    (match lastError with
     | some m => if m = "" then "未知错误" else m
     | none => "未知错误")

/-- The retry loop, indexed by the current attempt number and the number
of attempts still allowed.  `outcomes k` is the oracle for the HTTP call
of attempt `k`.  A sleep of `500 * attempt` happens only when further
attempts remain. -/
def analyzeGo (outcomes : Nat → AttemptResult) (attempt : Nat)
    (lastError : Option String) : Nat → RunResult
  | 0 => ⟨.error (wrapFailure lastError), [], 0⟩
  | remaining + 1 =>
      match attemptEval (outcomes attempt) with
      | .ok c => ⟨.ok c, [], 1⟩
      | .error m =>
          let rest := analyzeGo outcomes (attempt + 1) (some m) remaining
          ⟨rest.result,
            (if 0 < remaining then [500 * attempt] else []) ++ rest.sleeps,
            rest.attempts + 1⟩

/-- `analyzeImage` retry behaviour: `maxRetries = config.maxRetries || 3`
(a configured 0 falls back to the default 3), then run attempts
`1..maxRetries`. -/
def analyzeImage (outcomes : Nat → AttemptResult) (configMaxRetries : Nat) : RunResult :=
  let maxRetries := if configMaxRetries = 0 then 3 else configMaxRetries
  analyzeGo outcomes 1 none maxRetries

end Vision

/-! ### Batch scheduler (`FileParser.parseMany`) and result formatter
(`FileParser.format`) -/

/-- One `(completed, total, record)` invocation of the `onProgress`
callback. -/
structure Progress where
  completed : Nat
  total : Nat
  current : ParsedFile
deriving DecidableEq, Repr

/-- The chunking of `for (let i = 0; i < urls.length; i += concurrency)`
with `urls.slice(i, i + concurrency)`: consecutive chunks of size
`concurrency` (the final one possibly shorter).  The model consumes at
least one element per step, which matches the source exactly when
`concurrency ≥ 1`; `concurrency = 0` would not terminate in JS. -/
def chunkList (c : Nat) : List α → List (List α)
  | [] => []
  | x :: xs => (x :: xs.take (c - 1)) :: chunkList c (xs.drop (c - 1))
termination_by l => l.length
decreasing_by simp [List.length_drop]; omega

/-- The `onProgress` invocations emitted while draining one settled chunk:
the completed count is incremented before each callback. -/
def chunkProgress (total : Nat) : Nat → List ParsedFile → List Progress
  | _, [] => []
  | completed, r :: rs => ⟨completed + 1, total, r⟩ :: chunkProgress total (completed + 1) rs

/-- The chunk loop of `parseMany`: each chunk is mapped through `parseFn`
(`Promise.all` returns the settled results in submission order), appended
to the running result list, and reported through `onProgress`. -/
def parseManyGo (parseFn : String → ParsedFile) (total : Nat) :
    List (List String) → Nat → List ParsedFile × List Progress
  | [], _ => ([], [])
  | chunk :: rest, completed =>
      let batchResults := chunk.map parseFn
      let tail := parseManyGo parseFn total rest (completed + batchResults.length)
      (batchResults ++ tail.1, chunkProgress total completed batchResults ++ tail.2)

/-- `FileParser.parseMany(urls, concurrency)`, with `parse` abstracted to
`parseFn` (the per-URL `catch` that converts an unexpected exception into
an unsuccessful record is absorbed into `parseFn` being total, as `parse`
itself never throws).  Returns the collected records and the sequence of
`onProgress` invocations. -/
def parseMany (parseFn : String → ParsedFile) (urls : List String) (concurrency : Nat) :
    List ParsedFile × List Progress :=
  parseManyGo parseFn urls.length (chunkList concurrency urls) 0

/-- `FormatOptions` with the code's defaults applied (`includeTitle=true`,
`includeUrl=false`, `separator="---"`, `onError="skip"`).  `onError` is the
raw string: the code tests for `"skip"` and `"error"` and treats anything
else as `include`. -/
structure FormatOptions where
  includeTitle : Bool
  includeUrl : Bool
  separator : String
  onError : String
deriving DecidableEq, Repr

/-- `FileParser.getTypeLabel`. -/
def getTypeLabel : FileType → String
  | .excel => "表格"
  | .csv => "表格"
  | .word => "文档"
  | .text => "文本"
  | .pdf => "PDF"
  | .json => "JSON"
  | .yaml => "YAML"
  | .xml => "XML"
  | .html => "网页"
  | .markdown => "Markdown"
  | .image => "图片"
  | .audio => "音频"
  | .video => "视频"
  | .unknown => "文件"

/-- JS `${file.error}` interpolates a missing field as `"undefined"`. -/
def errText (f : ParsedFile) : String := f.error.getD "undefined"

/-- The text block emitted for one successful record: optional
`【label】name` title line, optional URL line, then the content. -/
def formatBlock (opts : FormatOptions) (f : ParsedFile) : String :=
  (if opts.includeTitle then "【" ++ getTypeLabel f.type ++ "】" ++ f.fileName ++ "\n" else "")
    ++ (if opts.includeUrl then "URL: " ++ f.url ++ "\n" else "")
    ++ f.content

/-- The record loop of `FileParser.format`, producing the `parts` list or
the thrown error: a failed record is skipped, raises, or becomes a
one-line failure note according to `onError`. -/
def formatParts (opts : FormatOptions) : List ParsedFile → Except String (List String)
  | [] => .ok []
  | f :: fs =>
      if f.success = false then
        if opts.onError = "skip" then formatParts opts fs
        else if opts.onError = "error" then
          .error ("文件解析失败: " ++ f.fileName ++ " - " ++ errText f)
        else
          (formatParts opts fs).map
            (fun parts => ("【" ++ f.fileName ++ "】解析失败: " ++ errText f) :: parts)
      else
        (formatParts opts fs).map (fun parts => formatBlock opts f :: parts)

/-- `FileParser.format`: the collected parts joined with
`"\n" + separator + "\n"`; `Except.error` models the thrown
`文件解析失败` error of `onError="error"`. -/
def format (files : List ParsedFile) (opts : FormatOptions) : Except String String :=
  (formatParts opts files).map
    (fun parts => String.intercalate ("\n" ++ opts.separator ++ "\n") parts)

/-! ## Theorems -/

/-! ### Orchestrator record shape -/

theorem parseWithAI_url_eq (url f : String) (t : FileType)
    (ai : Option (Except String String)) : (parseWithAI url f t ai).url = url := by
  unfold parseWithAI
  split <;> rfl

theorem parseWithAI_success_eq (url f : String) (t : FileType)
    (ai : Option (Except String String)) : (parseWithAI url f t ai).success = true := by
  unfold parseWithAI
  split <;> rfl

theorem parse_url_eq (url : String) (w : ParseWorld) : (parse url w).url = url := by
  simp only [parse]
  cases detectFileType (extractFileName w.decoded)
  all_goals repeat' split
  all_goals first | rfl | apply parseWithAI_url_eq

/-- Claim C1 (amended): every unsuccessful record produced by `parse` has
its error field set, and its content is either empty (the exception paths)
or the `[未知格式]` placeholder naming the file (the unknown-category
path) — the original claim's "content is the empty string" fails on the
unknown-category branch. -/
theorem c1_failure_record_shape (url : String) (w : ParseWorld)
    (h : (parse url w).success = false) :
    (parse url w).error.isSome = true ∧
      ((parse url w).content = "" ∨
        (parse url w).content = "[未知格式] " ++ (parse url w).fileName) := by
  revert h
  simp only [parse]
  cases detectFileType (extractFileName w.decoded)
  all_goals repeat' split
  all_goals intro h
  all_goals simp_all [parseWithAI_success_eq]

/-- Claim C1, counterexample: `parse` on a URL with the unmapped extension
`.zzz` returns `success = false` with a set error, but its content is the
nonempty placeholder `"[未知格式] a.zzz"`, contradicting the claimed
invariant `success == false → content == ""`. -/
theorem c1_unknown_content_not_empty :
    (parse "https://x.com/a.zzz"
        ⟨some "https://x.com/a.zzz", .ok (), .ok "", .ok "", none⟩).success = false ∧
    (parse "https://x.com/a.zzz"
        ⟨some "https://x.com/a.zzz", .ok (), .ok "", .ok "", none⟩).error =
      some "不支持的文件格式" ∧
    (parse "https://x.com/a.zzz"
        ⟨some "https://x.com/a.zzz", .ok (), .ok "", .ok "", none⟩).content =
      "[未知格式] a.zzz" ∧
    (parse "https://x.com/a.zzz"
        ⟨some "https://x.com/a.zzz", .ok (), .ok "", .ok "", none⟩).content ≠ "" := by
  refine ⟨rfl, rfl, rfl, by decide⟩

theorem c1_failure_record_shape_witness :
    (parse "https://x.com/a.csv"
        ⟨some "https://x.com/a.csv", .error "network down", .ok "", .ok "", none⟩).error.isSome
        = true ∧
      ((parse "https://x.com/a.csv"
          ⟨some "https://x.com/a.csv", .error "network down", .ok "", .ok "", none⟩).content
          = "" ∨
        (parse "https://x.com/a.csv"
          ⟨some "https://x.com/a.csv", .error "network down", .ok "", .ok "", none⟩).content
          = "[未知格式] " ++
            (parse "https://x.com/a.csv"
              ⟨some "https://x.com/a.csv", .error "network down", .ok "", .ok "", none⟩).fileName) :=
  c1_failure_record_shape "https://x.com/a.csv"
    ⟨some "https://x.com/a.csv", .error "network down", .ok "", .ok "", none⟩ (by decide)

/-- Claim C8 (confirmed): for a URL classified as image, audio, or video,
when no AI provider is configured or the provider call failed, `parse`
returns a record with `success = true` whose content contains the literal
original URL (the placeholder-link text); an AI failure never makes the
record unsuccessful. -/
theorem c8_media_placeholder (url : String) (w : ParseWorld)
    (htype : detectFileType (extractFileName w.decoded) = .image ∨
      detectFileType (extractFileName w.decoded) = .audio ∨
      detectFileType (extractFileName w.decoded) = .video)
    (hai : w.ai = none ∨ ∃ e, w.ai = some (.error e)) :
    (parse url w).success = true ∧
      ∃ a b, (parse url w).content = a ++ url ++ b := by
  have hcontent : ∀ t, parseWithAI url (extractFileName w.decoded) t w.ai =
      ⟨extractFileName w.decoded, url, t,
        "[" ++ aiLabel t ++ "] " ++ extractFileName w.decoded ++ "\n文件链接: " ++ url ++
          "\n（需要配置 AI 才能解析此类型文件）", true, none⟩ := by
    intro t
    rcases hai with h | ⟨e, h⟩ <;> simp [parseWithAI, h]
  rcases htype with h | h | h <;>
    simp only [parse, h] <;> rw [hcontent] <;>
    exact ⟨rfl, _, _, rfl⟩

/-! ### Batch scheduler -/

theorem ceil_div_step (c m : Nat) (hc : 1 ≤ c) (hm : 1 ≤ m) :
    (m - c + c - 1) / c + 1 = (m + c - 1) / c := by
  rcases le_or_lt c m with h | h
  · rw [show m - c + c - 1 = m - 1 from by omega,
      show m + c - 1 = (m - 1) + c from by omega,
      Nat.add_div_right _ (by omega : 0 < c)]
  · rw [show m - c = 0 from by omega,
      show m + c - 1 = (m - 1) + c from by omega,
      Nat.add_div_right _ (by omega : 0 < c),
      Nat.div_eq_of_lt (by omega : 0 + c - 1 < c),
      Nat.div_eq_of_lt (by omega : m - 1 < c)]

theorem chunkList_flatten (c : Nat) : ∀ (l : List α), (chunkList c l).flatten = l
  | [] => by rw [chunkList]; rfl
  | x :: xs => by
      rw [chunkList, List.flatten_cons, chunkList_flatten c (xs.drop (c - 1))]
      rw [List.cons_append, List.take_append_drop]
termination_by l => l.length
decreasing_by simp [List.length_drop]; omega

theorem chunkList_length (c : Nat) (hc : 1 ≤ c) : ∀ (l : List α),
    (chunkList c l).length = (l.length + c - 1) / c
  | [] => by
      rw [chunkList]
      simp only [List.length_nil, Nat.zero_add]
      rw [eq_comm]
      exact Nat.div_eq_of_lt (by omega)
  | x :: xs => by
      rw [chunkList]
      rw [List.length_cons, chunkList_length c hc (xs.drop (c - 1)), List.length_drop]
      rw [show xs.length - (c - 1) = (xs.length + 1) - c from by omega]
      rw [ceil_div_step c (xs.length + 1) hc (by omega)]
      rfl
termination_by l => l.length
decreasing_by simp [List.length_drop]; omega

theorem chunkList_chunk_le (c : Nat) (hc : 1 ≤ c) : ∀ (l : List α),
    ∀ ch ∈ chunkList c l, ch.length ≤ c
  | [] => by rw [chunkList]; intro ch h; simp at h
  | x :: xs => by
      rw [chunkList]
      intro ch h
      rcases List.mem_cons.mp h with h | h
      · subst h
        have := List.length_take_le (c - 1) xs
        simp only [List.length_cons]
        omega
      · exact chunkList_chunk_le c hc (xs.drop (c - 1)) ch h
termination_by l => l.length
decreasing_by simp [List.length_drop]; omega

theorem chunkProgress_append (total : Nat) :
    ∀ (a b : List ParsedFile) (k : Nat),
      chunkProgress total k (a ++ b) =
        chunkProgress total k a ++ chunkProgress total (k + a.length) b := by
  intro a
  induction a with
  | nil => intro b k; simp [chunkProgress]
  | cons x t ih =>
      intro b k
      simp only [List.cons_append, chunkProgress, List.append_eq, ih, List.length_cons]
      rw [show k + (t.length + 1) = k + 1 + t.length from by omega]

theorem parseManyGo_eq (parseFn : String → ParsedFile) (total : Nat) :
    ∀ (chunks : List (List String)) (k : Nat),
      parseManyGo parseFn total chunks k =
        ((chunks.flatten).map parseFn, chunkProgress total k ((chunks.flatten).map parseFn)) := by
  intro chunks
  induction chunks with
  | nil => intro k; simp [parseManyGo, chunkProgress]
  | cons ch rest ih =>
      intro k
      simp only [parseManyGo, ih, List.flatten_cons, List.map_append, chunkProgress_append,
        List.length_map]

theorem parseMany_eq (parseFn : String → ParsedFile) (urls : List String) (c : Nat) :
    parseMany parseFn urls c =
      (urls.map parseFn, chunkProgress urls.length 0 (urls.map parseFn)) := by
  rw [parseMany, parseManyGo_eq, chunkList_flatten]

theorem chunkProgress_completed (total : Nat) :
    ∀ (rs : List ParsedFile) (k : Nat),
      (chunkProgress total k rs).map (fun p => p.completed) =
        List.range' (k + 1) rs.length := by
  intro rs
  induction rs with
  | nil => intro k; simp [chunkProgress]
  | cons r t ih =>
      intro k
      simp [chunkProgress, List.range', ih]

theorem chunkProgress_total (total : Nat) :
    ∀ (rs : List ParsedFile) (k : Nat) (p : Progress),
      p ∈ chunkProgress total k rs → p.total = total := by
  intro rs
  induction rs with
  | nil => intro k p h; simp [chunkProgress] at h
  | cons r t ih =>
      intro k p h
      rcases List.mem_cons.mp h with h | h
      · subst h; rfl
      · exact ih (k + 1) p h

theorem chunkProgress_current (total : Nat) :
    ∀ (rs : List ParsedFile) (k : Nat),
      (chunkProgress total k rs).map (fun p => p.current) = rs := by
  intro rs
  induction rs with
  | nil => intro k; simp [chunkProgress]
  | cons r t ih => intro k; simp [chunkProgress, ih]



theorem chunkProgress_length (total : Nat) (rs : List ParsedFile) (k : Nat) :
    (chunkProgress total k rs).length = rs.length := by
  have h := chunkProgress_current total rs k
  calc (chunkProgress total k rs).length
      = ((chunkProgress total k rs).map (fun p => p.current)).length := by
        rw [List.length_map]
    _ = rs.length := by rw [h]

/-- Claim C7 (confirmed): for `n` URLs and concurrency `c ≥ 1`,
`parseMany` returns exactly `n` records, partitions the URLs into
`ceil(n/c)` strictly sequential chunks of size at most `c` whose
concatenation is the input list, and invokes `onProgress` exactly `n`
times with completed counts `1..n` (strictly increasing), total always
`n`, and the just-finished record as payload. -/
theorem c7_parseMany_schedule (parseFn : String → ParsedFile) (urls : List String)
    (c : Nat) (h : 1 ≤ c) :
    (parseMany parseFn urls c).1.length = urls.length ∧
    (chunkList c urls).length = (urls.length + c - 1) / c ∧
    (∀ ch ∈ chunkList c urls, ch.length ≤ c) ∧
    (chunkList c urls).flatten = urls ∧
    (parseMany parseFn urls c).2.length = urls.length ∧
    (parseMany parseFn urls c).2.map (fun p => p.completed) = List.range' 1 urls.length ∧
    (∀ p ∈ (parseMany parseFn urls c).2, p.total = urls.length) ∧
    (parseMany parseFn urls c).2.map (fun p => p.current) = (parseMany parseFn urls c).1 := by
  rw [parseMany_eq]
  refine ⟨by simp, chunkList_length c h urls, chunkList_chunk_le c h urls,
    chunkList_flatten c urls, ?_, ?_, ?_, ?_⟩
  · rw [chunkProgress_length, List.length_map]
  · rw [chunkProgress_completed, List.length_map]
  · intro p hp
    exact chunkProgress_total urls.length (urls.map parseFn) 0 p hp
  · exact chunkProgress_current urls.length (urls.map parseFn) 0

/-- Claim C10 (confirmed): the sequence returned by `parseMany` preserves
exact input order — the record at index `i` has `url = urls[i]` — because
each chunk's `Promise.all` results are collected in submission order after
the whole chunk settles (order preservation of `Promise.all` is part of
the embedding of the scheduler). -/
theorem c10_parseMany_order (worlds : String → ParseWorld) (urls : List String)
    (c : Nat) (h : 1 ≤ c) :
    (parseMany (fun u => parse u (worlds u)) urls c).1.map (fun r => r.url) = urls := by
  rw [parseMany_eq, List.map_map]
  have hcomp : ((fun r => r.url) ∘ fun u => parse u (worlds u)) = fun u => u := by
    funext u
    exact parse_url_eq u (worlds u)
  rw [hcomp, List.map_id']


theorem c7_parseMany_schedule_witness :
    (parseMany (fun u => ⟨u, u, .text, "c", true, none⟩) ["a", "b", "c", "d", "e"] 2).1.length
        = (["a", "b", "c", "d", "e"] : List String).length ∧
    (chunkList 2 ["a", "b", "c", "d", "e"]).length =
      ((["a", "b", "c", "d", "e"] : List String).length + 2 - 1) / 2 ∧
    (∀ ch ∈ chunkList 2 ["a", "b", "c", "d", "e"], ch.length ≤ 2) ∧
    (chunkList 2 ["a", "b", "c", "d", "e"]).flatten = ["a", "b", "c", "d", "e"] ∧
    (parseMany (fun u => ⟨u, u, .text, "c", true, none⟩) ["a", "b", "c", "d", "e"] 2).2.length
        = (["a", "b", "c", "d", "e"] : List String).length ∧
    (parseMany (fun u => ⟨u, u, .text, "c", true, none⟩) ["a", "b", "c", "d", "e"] 2).2.map
        (fun p => p.completed) = List.range' 1 (["a", "b", "c", "d", "e"] : List String).length ∧
    (∀ p ∈ (parseMany (fun u => ⟨u, u, .text, "c", true, none⟩) ["a", "b", "c", "d", "e"] 2).2,
        p.total = (["a", "b", "c", "d", "e"] : List String).length) ∧
    (parseMany (fun u => ⟨u, u, .text, "c", true, none⟩) ["a", "b", "c", "d", "e"] 2).2.map
        (fun p => p.current) =
      (parseMany (fun u => ⟨u, u, .text, "c", true, none⟩) ["a", "b", "c", "d", "e"] 2).1 :=
  c7_parseMany_schedule (fun u => ⟨u, u, .text, "c", true, none⟩)
    ["a", "b", "c", "d", "e"] 2 (by decide)

theorem c10_parseMany_order_witness :
    (parseMany
        (fun u => parse u ⟨some u, .ok (), .ok "", .ok "", none⟩)
        ["https://x.com/a.csv", "https://x.com/b.png"] 2).1.map (fun r => r.url) =
      ["https://x.com/a.csv", "https://x.com/b.png"] :=
  c10_parseMany_order (fun u => ⟨some u, .ok (), .ok "", .ok "", none⟩)
    ["https://x.com/a.csv", "https://x.com/b.png"] 2 (by decide)

/-! ### Tabular extractors -/

theorem processSheet_truncated (config : Excel.ExcelConfig) (st : Excel.LoopState)
    (s : Excel.Sheet) :
    (Excel.processSheet config st s).truncated =
      (st.truncated ||
        (decide (0 < config.maxRows) && decide (config.maxRows < (s.data.length : Int)))) := by
  unfold Excel.processSheet
  split
  · rename_i h
    rw [h]
    have h2 : (decide (0 < config.maxRows) && decide (config.maxRows < ((0 : Nat) : Int))) = false := by
      by_cases hm : 0 < config.maxRows
      · simp only [Bool.and_eq_false_iff]
        right
        simp only [decide_eq_false_iff_not]
        omega
      · simp [hm]
    rw [h2, Bool.or_false]
  · split
    · rfl
    · split
      · rfl
      · split <;> rfl

theorem foldl_processSheet_truncated (config : Excel.ExcelConfig) :
    ∀ (l : List Excel.Sheet) (st : Excel.LoopState),
      (l.foldl (Excel.processSheet config) st).truncated =
        (st.truncated || l.any (fun s =>
          decide (0 < config.maxRows) && decide (config.maxRows < (s.data.length : Int)))) := by
  intro l
  induction l with
  | nil => intro st; simp
  | cons x t ih =>
      intro st
      rw [List.foldl_cons, ih, processSheet_truncated, List.any_cons, Bool.or_assoc]

/-- Claim C5 (confirmed): for every workbook processed with `maxRows > 0`,
the returned `truncated` flag is true exactly when some processed sheet has
more rows than `maxRows`, and the flag is sticky — once the loop state has
it set, no later sheet can unset it. -/
theorem c5_excel_truncated_sticky (sheets : List Excel.Sheet) (config : Excel.ExcelConfig)
    (h : 0 < config.maxRows) :
    ((Excel.parseExcel sheets config).metadata.truncated =
      (Excel.sheetsToProcess config sheets).any
        (fun s => decide (config.maxRows < (s.data.length : Int)))) ∧
    (∀ (st : Excel.LoopState) (sheet : Excel.Sheet), st.truncated = true →
      (Excel.processSheet config st sheet).truncated = true) := by
  constructor
  · unfold Excel.parseExcel
    simp only [foldl_processSheet_truncated, Bool.false_or]
    congr 1
    funext s
    rw [decide_eq_true h, Bool.true_and]
  · intro st sheet hst
    rw [processSheet_truncated, hst, Bool.true_or]

theorem c5_excel_truncated_sticky_witness :
    ((Excel.parseExcel [⟨"S1", [[some "a"], [some "b"], [some "c"]]⟩, ⟨"S2", [[some "x"]]⟩]
        ⟨2, true, "markdown"⟩).metadata.truncated =
      (Excel.sheetsToProcess ⟨2, true, "markdown"⟩
          [⟨"S1", [[some "a"], [some "b"], [some "c"]]⟩, ⟨"S2", [[some "x"]]⟩]).any
        (fun s => decide ((2 : Int) < (s.data.length : Int)))) ∧
    (∀ (st : Excel.LoopState) (sheet : Excel.Sheet), st.truncated = true →
      (Excel.processSheet ⟨2, true, "markdown"⟩ st sheet).truncated = true) :=
  c5_excel_truncated_sticky
    [⟨"S1", [[some "a"], [some "b"], [some "c"]]⟩, ⟨"S2", [[some "x"]]⟩]
    ⟨2, true, "markdown"⟩ (by decide)



theorem processSheet_rawSheets (config : Excel.ExcelConfig)
    (hraw : config.outputFormat = "raw") (st : Excel.LoopState) (s : Excel.Sheet) :
    (Excel.processSheet config st s).rawSheets =
      st.rawSheets ++
        (if s.data.length = 0 then [] else [Excel.rawSheetOf config s]) := by
  unfold Excel.processSheet
  split
  · exact (List.append_nil _).symm
  · simp [hraw, Excel.rawSheetOf, Excel.rowsToIncludeOf]

theorem foldl_processSheet_rawSheets (config : Excel.ExcelConfig)
    (hraw : config.outputFormat = "raw") :
    ∀ (l : List Excel.Sheet) (st : Excel.LoopState),
      (l.foldl (Excel.processSheet config) st).rawSheets =
        st.rawSheets ++
          (l.filter (fun s => !(s.data.length == 0))).map (Excel.rawSheetOf config) := by
  intro l
  induction l with
  | nil => intro st; simp
  | cons x t ih =>
      intro st
      rw [List.foldl_cons, ih, processSheet_rawSheets config hraw, List.filter_cons]
      by_cases h : x.data.length = 0
      · simp [h]
      · simp [h]

theorem parseExcel_rawData_eq (sheets : List Excel.Sheet) (config : Excel.ExcelConfig)
    (hraw : config.outputFormat = "raw") :
    (Excel.parseExcel sheets config).rawData =
      some ⟨((Excel.sheetsToProcess config sheets).filter
          (fun s => !(s.data.length == 0))).map (Excel.rawSheetOf config)⟩ := by
  unfold Excel.parseExcel
  simp [hraw, foldl_processSheet_rawSheets config hraw]

theorem parseCSV_rawData_eq (text fileName : String) (cfg : Csv.CSVConfig)
    (hraw : cfg.outputFormat = "raw") (hne : Csv.csvLines text ≠ []) :
    (Csv.parseCSV text fileName cfg).rawData =
      some ⟨[⟨"CSV", (Csv.includedRows text cfg).headD [],
        (Csv.includedRows text cfg).drop 1,
        ((Csv.includedRows text cfg).drop 1).length⟩]⟩ := by
  have h0 : ¬ ((Csv.csvLines text).length = 0) := by
    simpa [List.length_eq_zero] using hne
  simp only [Csv.parseCSV]
  rw [if_neg h0]
  simp only [hraw, if_pos rfl]
  rfl

theorem includedRows_length (text : String) (cfg : Csv.CSVConfig) :
    (Csv.includedRows text cfg).length = Csv.rowsToIncludeOf text cfg := by
  rw [Csv.includedRows, List.length_map, List.length_take]
  rw [Csv.rowsToIncludeOf]
  omega



/-- Claim C2 (amended): for `outputFormat="raw"` the Excel extractor's
structured sheets each report `totalRows` equal to the source sheet's full
row count and a row-matrix of length `min(total, maxRows>0?maxRows:total)`,
as claimed; the CSV extractor, however, excludes the header row from the
matrix and reports `totalRows` equal to the number of included data rows
(`min(total, cap) - 1`), not the source total. -/
theorem c2_raw_row_counts
    (sheets : List Excel.Sheet) (config : Excel.ExcelConfig)
    (hraw : config.outputFormat = "raw")
    (text fileName : String) (ccfg : Csv.CSVConfig)
    (hcraw : ccfg.outputFormat = "raw") (hne : Csv.csvLines text ≠ []) :
    (∀ rs ∈ ((Excel.parseExcel sheets config).rawData.getD ⟨[]⟩).sheets,
      ∃ s ∈ Excel.sheetsToProcess config sheets,
        rs.name = s.name ∧ rs.totalRows = s.data.length ∧
        rs.rows.length = Excel.rowsToIncludeOf config s) ∧
    ((Csv.parseCSV text fileName ccfg).rawData =
      some ⟨[⟨"CSV", (Csv.includedRows text ccfg).headD [],
        (Csv.includedRows text ccfg).drop 1,
        ((Csv.includedRows text ccfg).drop 1).length⟩]⟩ ∧
      ((Csv.includedRows text ccfg).drop 1).length =
        Csv.rowsToIncludeOf text ccfg - 1) := by
  constructor
  · intro rs hrs
    rw [parseExcel_rawData_eq sheets config hraw] at hrs
    simp only [Option.getD_some] at hrs
    obtain ⟨s, hsmem, rfl⟩ := List.mem_map.mp hrs
    refine ⟨s, List.mem_of_mem_filter hsmem, rfl, rfl, ?_⟩
    rw [Excel.rawSheetOf]
    simp only [List.length_map, List.length_take]
    rw [Excel.rowsToIncludeOf]
    omega
  · refine ⟨parseCSV_rawData_eq text fileName ccfg hcraw hne, ?_⟩
    rw [List.length_drop, includedRows_length]

/-- Claim C2, counterexample: a 3-line CSV parsed raw with `maxRows = 2`
yields a structured sheet with `totalRows = 1` and one included row,
whereas the claim requires `totalRows = 3` (the source total) and a row
matrix of length `min(3, 2) = 2`. -/
theorem c2_csv_raw_counterexample :
    (Csv.parseCSV "a\nb\nc" "t.csv" ⟨',', 2, "raw"⟩).rawData =
      some ⟨[⟨"CSV", ["a"], [["b"]], 1⟩]⟩ ∧
    (1 : Nat) ≠ (Csv.csvLines "a\nb\nc").length ∧
    (1 : Nat) ≠ min (Csv.csvLines "a\nb\nc").length 2 := by
  exact ⟨rfl, by decide, by decide⟩

theorem c2_raw_row_counts_witness :
    (∀ rs ∈ ((Excel.parseExcel [⟨"S1", [[some "a"], [some "b"], [some "c"]]⟩]
        ⟨2, true, "raw"⟩).rawData.getD ⟨[]⟩).sheets,
      ∃ s ∈ Excel.sheetsToProcess ⟨2, true, "raw"⟩
          [⟨"S1", [[some "a"], [some "b"], [some "c"]]⟩],
        rs.name = s.name ∧ rs.totalRows = s.data.length ∧
        rs.rows.length = Excel.rowsToIncludeOf ⟨2, true, "raw"⟩ s) ∧
    ((Csv.parseCSV "a\nb\nc" "t.csv" ⟨',', 2, "raw"⟩).rawData =
      some ⟨[⟨"CSV", (Csv.includedRows "a\nb\nc" ⟨',', 2, "raw"⟩).headD [],
        (Csv.includedRows "a\nb\nc" ⟨',', 2, "raw"⟩).drop 1,
        ((Csv.includedRows "a\nb\nc" ⟨',', 2, "raw"⟩).drop 1).length⟩]⟩ ∧
      ((Csv.includedRows "a\nb\nc" ⟨',', 2, "raw"⟩).drop 1).length =
        Csv.rowsToIncludeOf "a\nb\nc" ⟨',', 2, "raw"⟩ - 1) :=
  c2_raw_row_counts [⟨"S1", [[some "a"], [some "b"], [some "c"]]⟩] ⟨2, true, "raw"⟩ rfl
    "a\nb\nc" "t.csv" ⟨',', 2, "raw"⟩ rfl (by decide)



theorem parseCSV_metadata_eq (text fileName : String) (cfg : Csv.CSVConfig)
    (hne : Csv.csvLines text ≠ []) :
    (Csv.parseCSV text fileName cfg).metadata =
      ⟨Csv.rowsToIncludeOf text cfg, Csv.truncatedOf text cfg⟩ := by
  have h0 : ¬ ((Csv.csvLines text).length = 0) := by
    simpa [List.length_eq_zero] using hne
  simp only [Csv.parseCSV]
  rw [if_neg h0]

theorem parseCSV_csv_content_eq (text fileName : String) (cfg : Csv.CSVConfig)
    (hcsv : cfg.outputFormat = "csv") (hne : Csv.csvLines text ≠ []) :
    (Csv.parseCSV text fileName cfg).content =
      jsTrim (String.intercalate "\n" ((Csv.includedRows text cfg).map
        (fun row => String.intercalate (String.singleton cfg.delimiter) row)) ++
        Csv.omitFooter text cfg) := by
  have h0 : ¬ ((Csv.csvLines text).length = 0) := by
    simpa [List.length_eq_zero] using hne
  simp only [Csv.parseCSV]
  rw [if_neg h0]
  simp only [hcsv]
  rw [if_neg (show ¬ (("csv" : String) = "raw") from by decide),
    if_neg (show ¬ (("csv" : String) = "markdown") from by decide),
    if_neg (show ¬ (("csv" : String) = "json") from by decide)]
  simp only [Csv.omitFooter]
  by_cases ht : Csv.truncatedOf text cfg = true
  · rw [if_pos ht, if_pos ht]
    simp only [String.append_assoc]
  · rw [if_neg ht, if_neg ht, String.append_empty]

theorem parseCSV_markdown_content_eq (text fileName : String) (cfg : Csv.CSVConfig)
    (hmd : cfg.outputFormat = "markdown") (hne : Csv.csvLines text ≠ []) :
    (Csv.parseCSV text fileName cfg).content =
      jsTrim (Csv.formatAsMarkdown (Csv.includedRows text cfg) ++
        Csv.omitFooter text cfg) := by
  have h0 : ¬ ((Csv.csvLines text).length = 0) := by
    simpa [List.length_eq_zero] using hne
  simp only [Csv.parseCSV]
  rw [if_neg h0]
  simp only [hmd]
  rw [if_neg (show ¬ (("markdown" : String) = "raw") from by decide),
    if_pos (trivial : True)]
  simp only [Csv.omitFooter]
  by_cases ht : Csv.truncatedOf text cfg = true
  · rw [if_pos ht, if_pos ht]
    simp only [String.append_assoc]
  · rw [if_neg ht, if_neg ht, String.append_empty]



/-- Claim C3 (amended): the Excel `csv` serializer quotes any field
containing a comma, a quote, or a newline, doubling embedded quotes — the
claim's example cell value serializes as `"He said ""hi"", ok"`; the CSV
extractor's `csv` output, however, re-joins the parsed (already unquoted,
trimmed) cells with the bare delimiter and performs no re-quoting at all. -/
theorem c3_csv_output_quoting (v : String)
    (hv : (containsChar v ',' || containsChar v '"' || containsChar v '\n') = true)
    (text fileName : String) (cfg : Csv.CSVConfig)
    (hcsv : cfg.outputFormat = "csv") (hne : Csv.csvLines text ≠ []) :
    Excel.csvEscapeCell (some v) = "\"" ++ replaceChar '"' "\"\"" v ++ "\"" ∧
    Excel.csvEscapeCell (some "He said \"hi\", ok") = "\"He said \"\"hi\"\", ok\"" ∧
    (Csv.parseCSV text fileName cfg).content =
      jsTrim (String.intercalate "\n" ((Csv.includedRows text cfg).map
        (fun row => String.intercalate (String.singleton cfg.delimiter) row)) ++
        Csv.omitFooter text cfg) := by
  refine ⟨?_, by decide, parseCSV_csv_content_eq text fileName cfg hcsv hne⟩
  simp only [Excel.csvEscapeCell]
  rw [if_pos hv]

/-- Claim C3, counterexample: the parsed cell `He said "hi", ok` (from the
CSV source field `"He said ""hi"", ok"`) is re-serialized by the CSV
extractor's `csv` output as bare `He said "hi", ok,x` — not wrapped in
quotes, quotes not doubled (the content does not even start with a
quote). -/
theorem c3_csv_no_quoting_counterexample :
    (Csv.parseCSV "\"He said \"\"hi\"\", ok\",x" "t.csv" ⟨',', -1, "csv"⟩).content =
      "He said \"hi\", ok,x" ∧
    ((Csv.parseCSV "\"He said \"\"hi\"\", ok\",x" "t.csv"
        ⟨',', -1, "csv"⟩).content.toList.headD ' ') ≠ '"' := by
  exact ⟨rfl, by decide⟩

theorem c3_csv_output_quoting_witness :
    Excel.csvEscapeCell (some "a,b") = "\"" ++ replaceChar '"' "\"\"" "a,b" ++ "\"" ∧
    Excel.csvEscapeCell (some "He said \"hi\", ok") = "\"He said \"\"hi\"\", ok\"" ∧
    (Csv.parseCSV "x,y\nz,w" "t.csv" ⟨',', -1, "csv"⟩).content =
      jsTrim (String.intercalate "\n"
        ((Csv.includedRows "x,y\nz,w" ⟨',', -1, "csv"⟩).map
          (fun row => String.intercalate (String.singleton ',') row)) ++
        Csv.omitFooter "x,y\nz,w" ⟨',', -1, "csv"⟩) :=
  c3_csv_output_quoting "a,b" (by decide) "x,y\nz,w" "t.csv" ⟨',', -1, "csv"⟩
    rfl (by decide)

/-- Claim C4 (amended): for a CSV input of 10 non-blank rows parsed with
`maxRows = 5` and `outputFormat = "markdown"`, the result has
`truncated = true`, `rowCount = 5`, and the markdown output renders the
first included row as the table header followed by exactly 4 data rows
(5 source rows in total, not 5 data rows as claimed), plus a trailing
footer noting 5 omitted rows. -/
theorem c4_markdown_truncation (text fileName : String) (cfg : Csv.CSVConfig)
    (hm : cfg.maxRows = 5) (hf : cfg.outputFormat = "markdown")
    (h10 : (Csv.csvLines text).length = 10) :
    (Csv.parseCSV text fileName cfg).metadata.rowCount = 5 ∧
    (Csv.parseCSV text fileName cfg).metadata.truncated = true ∧
    (Csv.parseCSV text fileName cfg).content =
      jsTrim (Csv.formatAsMarkdown (Csv.includedRows text cfg) ++
        "\n\n... 省略了 5 行数据") ∧
    ∃ header body, Csv.includedRows text cfg = header :: body ∧ body.length = 4 ∧
      Csv.formatAsMarkdown (Csv.includedRows text cfg) =
        Csv.mdTableRow (header.map Csv.escapePipe) ++
        Csv.mdTableRow ((header.map Csv.escapePipe).map (fun _ => "---")) ++
        String.join (body.map (fun r => Csv.mdTableRow (r.map Csv.escapePipe))) := by
  have hne : Csv.csvLines text ≠ [] := by
    intro h
    rw [h] at h10
    simp at h10
  have hinc : Csv.rowsToIncludeOf text cfg = 5 := by
    rw [Csv.rowsToIncludeOf, h10, hm]
    decide
  have htr : Csv.truncatedOf text cfg = true := by
    rw [Csv.truncatedOf, h10, hm]
    decide
  have hfoot : Csv.omitFooter text cfg = "\n\n... 省略了 5 行数据" := by
    rw [Csv.omitFooter, if_pos htr, h10, hm]
    decide
  have hlen : (Csv.includedRows text cfg).length = 5 := by
    rw [includedRows_length, hinc]
  obtain ⟨header, body, hcons, hblen⟩ :
      ∃ header body, Csv.includedRows text cfg = header :: body ∧ body.length = 4 := by
    cases hx : Csv.includedRows text cfg with
    | nil => rw [hx] at hlen; simp at hlen
    | cons hrow t =>
        refine ⟨hrow, t, rfl, ?_⟩
        rw [hx] at hlen
        simpa using hlen
  have hmeta := parseCSV_metadata_eq text fileName cfg hne
  refine ⟨?_, ?_, ?_, header, body, hcons, hblen, ?_⟩
  · rw [hmeta]
    exact hinc
  · rw [hmeta]
    exact htr
  · rw [parseCSV_markdown_content_eq text fileName cfg hf hne, hfoot]
  · rw [hcons]
    rfl

/-- Claim C4, counterexample: for a concrete 10-row CSV with `maxRows=5`
and markdown output, the rendered table contains the header row, the dash
separator, and exactly 4 data rows — not the 5 data rows the claim
states — before the footer noting 5 omitted rows. -/
theorem c4_markdown_data_rows_counterexample :
    splitChar '\n'
        (Csv.parseCSV "h,x\nr1,1\nr2,2\nr3,3\nr4,4\nr5,5\nr6,6\nr7,7\nr8,8\nr9,9"
          "d.csv" ⟨',', 5, "markdown"⟩).content =
      ["| h | x |", "| --- | --- |", "| r1 | 1 |", "| r2 | 2 |", "| r3 | 3 |",
        "| r4 | 4 |", "", "", "... 省略了 5 行数据"] ∧
    (((splitChar '\n'
        (Csv.parseCSV "h,x\nr1,1\nr2,2\nr3,3\nr4,4\nr5,5\nr6,6\nr7,7\nr8,8\nr9,9"
          "d.csv" ⟨',', 5, "markdown"⟩).content).drop 2).filter
      (fun l => l.toList.take 2 == ['|', ' '])).length = 4 ∧
    (4 : Nat) ≠ 5 := by
  exact ⟨rfl, rfl, by decide⟩

theorem c4_markdown_truncation_witness :
    (Csv.parseCSV "h,x\nr1,1\nr2,2\nr3,3\nr4,4\nr5,5\nr6,6\nr7,7\nr8,8\nr9,9"
        "d.csv" ⟨',', 5, "markdown"⟩).metadata.rowCount = 5 ∧
    (Csv.parseCSV "h,x\nr1,1\nr2,2\nr3,3\nr4,4\nr5,5\nr6,6\nr7,7\nr8,8\nr9,9"
        "d.csv" ⟨',', 5, "markdown"⟩).metadata.truncated = true ∧
    (Csv.parseCSV "h,x\nr1,1\nr2,2\nr3,3\nr4,4\nr5,5\nr6,6\nr7,7\nr8,8\nr9,9"
        "d.csv" ⟨',', 5, "markdown"⟩).content =
      jsTrim (Csv.formatAsMarkdown (Csv.includedRows
          "h,x\nr1,1\nr2,2\nr3,3\nr4,4\nr5,5\nr6,6\nr7,7\nr8,8\nr9,9"
          ⟨',', 5, "markdown"⟩) ++ "\n\n... 省略了 5 行数据") ∧
    ∃ header body,
      Csv.includedRows "h,x\nr1,1\nr2,2\nr3,3\nr4,4\nr5,5\nr6,6\nr7,7\nr8,8\nr9,9"
          ⟨',', 5, "markdown"⟩ = header :: body ∧ body.length = 4 ∧
      Csv.formatAsMarkdown (Csv.includedRows
          "h,x\nr1,1\nr2,2\nr3,3\nr4,4\nr5,5\nr6,6\nr7,7\nr8,8\nr9,9"
          ⟨',', 5, "markdown"⟩) =
        Csv.mdTableRow (header.map Csv.escapePipe) ++
        Csv.mdTableRow ((header.map Csv.escapePipe).map (fun _ => "---")) ++
        String.join (body.map (fun r => Csv.mdTableRow (r.map Csv.escapePipe))) :=
  c4_markdown_truncation "h,x\nr1,1\nr2,2\nr3,3\nr4,4\nr5,5\nr6,6\nr7,7\nr8,8\nr9,9"
    "d.csv" ⟨',', 5, "markdown"⟩ rfl rfl (by decide)


/-! ### Result formatter -/

theorem formatParts_error_first (opts : FormatOptions) (hop : opts.onError = "error") :
    ∀ (files : List ParsedFile) (f : ParsedFile),
      files.find? (fun g => !g.success) = some f →
      formatParts opts files =
        .error ("文件解析失败: " ++ f.fileName ++ " - " ++ errText f) := by
  intro files
  induction files with
  | nil => intro f h; simp at h
  | cons g fs ih =>
      intro f h
      cases hs : g.success with
      | false =>
          rw [List.find?_cons_of_pos _ (by simp [hs])] at h
          injection h with h
          subst h
          simp [formatParts, hs, hop]
      | true =>
          rw [List.find?_cons_of_neg _ (by simp [hs])] at h
          simp [formatParts, hs, ih f h, Except.map]

theorem formatParts_skip (opts : FormatOptions) (hop : opts.onError = "skip") :
    ∀ (files : List ParsedFile),
      formatParts opts files =
        .ok ((files.filter (fun f => f.success)).map (formatBlock opts)) := by
  intro files
  induction files with
  | nil => simp [formatParts]
  | cons g fs ih =>
      cases hs : g.success with
      | false =>
          simp [formatParts, hs, hop, ih, List.filter_cons, Except.map]
      | true =>
          simp [formatParts, hs, ih, List.filter_cons, Except.map]

theorem formatParts_include (opts : FormatOptions) (hop : opts.onError = "include") :
    ∀ (files : List ParsedFile),
      formatParts opts files =
        .ok (files.map (fun f =>
          if f.success then formatBlock opts f
          else "【" ++ f.fileName ++ "】解析失败: " ++ errText f)) := by
  intro files
  induction files with
  | nil => simp [formatParts]
  | cons g fs ih =>
      cases hs : g.success with
      | false =>
          simp [formatParts, hs, hop, ih, Except.map]
      | true =>
          simp [formatParts, hs, ih, Except.map]

/-- Claim C9 (confirmed): `format` with `onError="error"` raises the first
time iteration (in input order) reaches an unsuccessful record, citing that
record's filename and error, and emits nothing; with `onError="skip"`
failed records are omitted entirely and the remaining blocks are joined
with `"\n" + separator + "\n"`; with `onError="include"` a one-line
failure note is emitted in place of the record's content. -/
theorem c9_format_onError (files : List ParsedFile) (opts : FormatOptions) :
    (∀ f, opts.onError = "error" →
      files.find? (fun g => !g.success) = some f →
      format files opts =
        .error ("文件解析失败: " ++ f.fileName ++ " - " ++ errText f)) ∧
    (opts.onError = "skip" →
      format files opts = .ok (String.intercalate ("\n" ++ opts.separator ++ "\n")
        ((files.filter (fun f => f.success)).map (formatBlock opts)))) ∧
    (opts.onError = "include" →
      format files opts = .ok (String.intercalate ("\n" ++ opts.separator ++ "\n")
        (files.map (fun f =>
          if f.success then formatBlock opts f
          else "【" ++ f.fileName ++ "】解析失败: " ++ errText f)))) := by
  refine ⟨?_, ?_, ?_⟩
  · intro f hop h
    rw [format, formatParts_error_first opts hop files f h]
    rfl
  · intro hop
    rw [format, formatParts_skip opts hop files]
    rfl
  · intro hop
    rw [format, formatParts_include opts hop files]
    rfl

theorem c9_format_onError_witness :
    format [⟨"f1", "u1", .text, "c1", true, none⟩,
        ⟨"f2", "u2", .unknown, "", false, some "bad"⟩,
        ⟨"f3", "u3", .text, "c3", true, none⟩]
      ⟨true, false, "---", "error"⟩ =
      .error ("文件解析失败: " ++ "f2" ++ " - " ++
        errText ⟨"f2", "u2", .unknown, "", false, some "bad"⟩) :=
  (c9_format_onError
    [⟨"f1", "u1", .text, "c1", true, none⟩,
      ⟨"f2", "u2", .unknown, "", false, some "bad"⟩,
      ⟨"f3", "u3", .text, "c3", true, none⟩]
    ⟨true, false, "---", "error"⟩).1
    ⟨"f2", "u2", .unknown, "", false, some "bad"⟩ rfl (by decide)


/-! ### Vision adapter retry -/

theorem sleeps_shift (a n : Nat) :
    (List.range (n + 1)).map (fun i => 500 * (a + i)) =
      500 * a :: (List.range n).map (fun i => 500 * (a + 1 + i)) := by
  rw [List.range_succ_eq_map, List.map_cons, List.map_map]
  refine congrArg₂ _ (by simp) ?_
  apply List.map_congr_left
  intro i _
  simp only [Function.comp_apply]
  omega

theorem analyzeGo_attempts_le (outcomes : Nat → Vision.AttemptResult) :
    ∀ (r a : Nat) (le : Option String), (Vision.analyzeGo outcomes a le r).attempts ≤ r := by
  intro r
  induction r with
  | zero => intro a le; simp [Vision.analyzeGo]
  | succ r ih =>
      intro a le
      simp only [Vision.analyzeGo]
      cases Vision.attemptEval (outcomes a) with
      | ok c => simp
      | error m => simpa using ih (a + 1) (some m)

theorem analyzeGo_first_ok (outcomes : Nat → Vision.AttemptResult) (j : Nat) (c : String) :
    ∀ (r a : Nat) (le : Option String), a ≤ j → j < a + r →
    (∀ k, a ≤ k → k < j → ∃ m, Vision.attemptEval (outcomes k) = .error m) →
    Vision.attemptEval (outcomes j) = .ok c →
    Vision.analyzeGo outcomes a le r =
      ⟨.ok c, (List.range (j - a)).map (fun i => 500 * (a + i)), j - a + 1⟩ := by
  intro r
  induction r with
  | zero => intro a le h1 h2; omega
  | succ r ih =>
      intro a le h1 h2 hfail hok
      by_cases hja : a = j
      · subst hja
        simp only [Vision.analyzeGo, hok]
        simp
      · have haj : a < j := lt_of_le_of_ne h1 hja
        obtain ⟨m, hm⟩ := hfail a le_rfl haj
        have hr : 0 < r := by omega
        simp only [Vision.analyzeGo, hm]
        rw [ih (a + 1) (some m) (by omega) (by omega)
          (fun k hk1 hk2 => hfail k (by omega) hk2) hok]
        rw [show j - a = (j - (a + 1)) + 1 from by omega, sleeps_shift]
        simp [if_pos hr]

theorem analyzeGo_all_fail (outcomes : Nat → Vision.AttemptResult) (ms : Nat → String) :
    ∀ (r a : Nat) (le : Option String), 1 ≤ r →
    (∀ k, a ≤ k → k < a + r → Vision.attemptEval (outcomes k) = .error (ms k)) →
    Vision.analyzeGo outcomes a le r =
      ⟨.error (Vision.wrapFailure (some (ms (a + r - 1)))),
        (List.range (r - 1)).map (fun i => 500 * (a + i)), r⟩ := by
  intro r
  induction r with
  | zero => intro a le h1; omega
  | succ r ih =>
      intro a le _ hfail
      have hma := hfail a le_rfl (by omega)
      rcases Nat.eq_zero_or_pos r with hr | hr
      · subst hr
        simp only [Vision.analyzeGo, hma]
        simp [Vision.wrapFailure]
      · simp only [Vision.analyzeGo, hma]
        rw [ih (a + 1) (some (ms a)) hr (fun k hk1 hk2 => hfail k (by omega) (by omega))]
        rw [show a + 1 + r - 1 = a + (r + 1) - 1 from by omega,
          show (r + 1) - 1 = (r - 1) + 1 from by omega, sleeps_shift]
        simp [if_pos hr]

/-- Claim C6 (confirmed): for every provider-shaped retry loop and every
configured `maxRetries = n ≥ 1`, `analyzeImage` makes at most `n` attempts;
an empty-text response is turned into the failure `"AI 返回内容为空"` like
any thrown error; if the first `j-1` attempts fail and attempt `j ≤ n`
yields content `c`, the run returns `c` after exactly `j` attempts with
backoff sleeps `500*1, ..., 500*(j-1)`; and if all `n` attempts fail, the
run throws `图片识别失败:` wrapping the last attempt's error message. -/
theorem c6_vision_retry (outcomes : Nat → Vision.AttemptResult) (n : Nat) (h : 1 ≤ n) :
    (Vision.analyzeImage outcomes n).attempts ≤ n ∧
    Vision.attemptEval (.ok "") = .error "AI 返回内容为空" ∧
    (∀ j c, 1 ≤ j → j ≤ n →
      (∀ k, 1 ≤ k → k < j → ∃ m, Vision.attemptEval (outcomes k) = .error m) →
      Vision.attemptEval (outcomes j) = .ok c →
      Vision.analyzeImage outcomes n =
        ⟨.ok c, (List.range (j - 1)).map (fun i => 500 * (1 + i)), j⟩) ∧
    (∀ ms : Nat → String,
      (∀ k, 1 ≤ k → k ≤ n → Vision.attemptEval (outcomes k) = .error (ms k)) →
      Vision.analyzeImage outcomes n =
        ⟨.error ("图片识别失败: " ++ (if ms n = "" then "未知错误" else ms n)),
          (List.range (n - 1)).map (fun i => 500 * (1 + i)), n⟩) := by
  have heff : Vision.analyzeImage outcomes n = Vision.analyzeGo outcomes 1 none n := by
    simp [Vision.analyzeImage, show ¬ n = 0 from by omega]
  refine ⟨?_, rfl, ?_, ?_⟩
  · rw [heff]; exact analyzeGo_attempts_le outcomes n 1 none
  · intro j c hj1 hjn hfail hok
    rw [heff, analyzeGo_first_ok outcomes j c n 1 none hj1 (by omega) hfail hok]
    rw [show j - 1 + 1 = j from by omega]
  · intro ms hfail
    rw [heff, analyzeGo_all_fail outcomes ms n 1 none h
      (fun k hk1 hk2 => hfail k hk1 (by omega))]
    rw [show 1 + n - 1 = n from by omega]
    rfl

theorem c6_vision_retry_witness :
    Vision.analyzeImage
        (fun k => if k < 3 then Vision.AttemptResult.err ("boom" ++ toString k)
          else Vision.AttemptResult.ok "yay") 3 =
      ⟨.ok "yay", [500, 1000], 3⟩ := by
  have h := (c6_vision_retry
      (fun k => if k < 3 then Vision.AttemptResult.err ("boom" ++ toString k)
        else Vision.AttemptResult.ok "yay") 3 (by decide)).2.2.1 3 "yay"
    (by decide) (by decide)
    (by
      intro k hk1 hk2
      refine ⟨"boom" ++ toString k, ?_⟩
      interval_cases k <;> rfl)
    rfl
  rw [h]
  rfl

theorem c8_media_placeholder_witness :
    (parse "https://x.com/cat.png"
        ⟨some "https://x.com/cat.png", .ok (), .ok "", .ok "", none⟩).success = true ∧
      ∃ a b, (parse "https://x.com/cat.png"
        ⟨some "https://x.com/cat.png", .ok (), .ok "", .ok "", none⟩).content =
          a ++ "https://x.com/cat.png" ++ b :=
  c8_media_placeholder "https://x.com/cat.png"
    ⟨some "https://x.com/cat.png", .ok (), .ok "", .ok "", none⟩
    (Or.inl (by decide)) (Or.inl rfl)

end AnyRead
